import Mathlib

/-!
Shallow embedding of the Cache-Aside Message Layer of the `proto` repository:
the Redis cache adapter (`RedisClient`, src/unnamed/part_006), the durable
message repository (`MessageRepository`, backend/src/infrastructure/repositories,
over the drizzle `messages` table of backend/src/db/schema.ts), the caching
repository (`CachedMessageRepository`) and the background reconciliation job
(`MessageSyncJob`, backend/src/infrastructure/jobs/message-sync.job.ts).

Modelling conventions:
* uuids and user/conversation ids are modelled as `Nat`; `defaultRandom()` id
  assignment is modelled by a fresh-id counter `nextId` in the store state.
* `timestamp defaultNow()` is modelled by a strictly increasing clock `now`.
* The opaque `metadata` jsonb payload is modelled as `Option Nat`.
* Every fallible Redis operation returns `Except CacheError`; a single
  `failing` flag on the cache state makes every call fail, modelling a cache
  outage (connection error / timeout).
* The raw string stored under a `messages:user:{userId}` key is abstracted to
  a `CachePayload`: `JSON.parse` either yields a message list (`wellFormed`)
  or throws (`malformed`).
* `PgState.reads` is a pure observation counter bumped by every durable
  SELECT (`findById` / `findByUserId`); it influences no result and exists
  only so that "performs a durable read" is a statable property.
-/

namespace Proto

/-- `MessageType`: the closed set 'user' | 'ai' | 'system' | 'plan_update'
(backend/src/domain/types). -/
inductive MessageType where
  | user
  | ai
  | system
  | planUpdate
deriving DecidableEq

/-- Domain `Message` (backend/src/domain/types). -/
structure Message where
  id : Nat
  conversationId : Nat
  userId : Nat
  type : MessageType
  content : String
  timestamp : Nat
  metadata : Option Nat
deriving DecidableEq

/-- The argument of `create`: `Omit<Message, 'id' | 'timestamp'> & { id?: string }`.
`idOpt` is the optional caller-preassigned id. -/
structure MessageInput where
  idOpt : Option Nat
  conversationId : Nat
  userId : Nat
  type : MessageType
  content : String
  metadata : Option Nat
deriving DecidableEq

/-- The argument of `update`: a TS `Partial<Message>`; `none` means the field
is absent from the object. -/
structure MessageUpdate where
  id : Option Nat
  conversationId : Option Nat
  userId : Option Nat
  type : Option MessageType
  content : Option String
  timestamp : Option Nat
  metadata : Option Nat
deriving DecidableEq

/-- The TS spread `{ ...msg, ...updates }` used by `CachedMessageRepository.update`
to rewrite a cached entry: every field present in `updates` replaces the one
in `msg`. -/
def mergeUpdate (m : Message) (u : MessageUpdate) : Message :=
  { id := u.id.getD m.id
    conversationId := u.conversationId.getD m.conversationId
    userId := u.userId.getD m.userId
    type := u.type.getD m.type
    content := u.content.getD m.content
    timestamp := u.timestamp.getD m.timestamp
    metadata := match u.metadata with | some v => some v | none => m.metadata }

/-- Failures of the durable store surfaced as `DatabaseError` in the source:
a violated primary-key constraint on `messages.id`, or drizzle's
"No values to set" on an update whose set-object is empty. -/
inductive DbError where
  | uniqueViolation
  | noValuesToSet
deriving DecidableEq

/-- State of the durable `messages` table plus the id/clock generators.
`reads` is the observation counter described in the file header. -/
structure PgState where
  rows : List Message
  nextId : Nat
  now : Nat
  reads : Nat
deriving DecidableEq

/-- Comparison used for `ORDER BY timestamp DESC`: `a` comes before `b`
iff `a` has the later (or equal) timestamp. -/
def tsGe (a b : Message) : Prop := b.timestamp ≤ a.timestamp

instance : DecidableRel tsGe := fun a b => Nat.decLe b.timestamp a.timestamp

instance : IsTotal Message tsGe :=
  ⟨fun a b => (Nat.le_total b.timestamp a.timestamp).imp id id⟩

instance : IsTrans Message tsGe :=
  ⟨fun _ _ _ hab hbc => Nat.le_trans hbc hab⟩

/-- `MessageRepository.create` (user.repository.ts:121-145): insert a row,
with `id` defaulting to a fresh uuid (`defaultRandom()`) and `timestamp`
defaulting to `now()`; a duplicate explicit id violates the primary key. -/
def pgCreate (st : PgState) (input : MessageInput) :
    Except DbError (Message × PgState) :=
  let newId := input.idOpt.getD st.nextId
  if st.rows.any (fun r => r.id == newId) then
    .error .uniqueViolation
  else
    let created : Message :=
      { id := newId, conversationId := input.conversationId,
        userId := input.userId, type := input.type,
        content := input.content, timestamp := st.now,
        metadata := input.metadata }
    .ok (created,
      { st with rows := st.rows ++ [created],
                nextId := max st.nextId (newId + 1),
                now := st.now + 1 })

/-- `MessageRepository.findById`: `SELECT ... WHERE id = $1 LIMIT 1`. -/
def pgFindById (st : PgState) (id : Nat) : Option Message × PgState :=
  (st.rows.find? (fun r => r.id == id), { st with reads := st.reads + 1 })

/-- `MessageRepository.findByUserId` (user.repository.ts:176-189):
`SELECT ... WHERE user_id = $1 ORDER BY timestamp DESC LIMIT n`, then
`.map(toDomain).reverse()` — the `limit` most recent messages in ascending
timestamp order. -/
def pgFindByUserId (st : PgState) (userId limit : Nat) :
    List Message × PgState :=
  ((((st.rows.filter (fun r => r.userId == userId)).insertionSort tsGe).take
      limit).reverse,
   { st with reads := st.reads + 1 })

/-- `MessageRepository.update` (user.repository.ts:191-206): the drizzle
`set` object contains only `content` and `metadata`; drizzle drops fields
whose value is `undefined`, and throws "No values to set" when the resulting
set-object is empty. The row keeps its `id`, `userId`, `conversationId`,
`type` and `timestamp` whatever `updates` contains. -/
def pgUpdate (st : PgState) (id : Nat) (upd : MessageUpdate) :
    Except DbError (Option Message × PgState) :=
  if upd.content = none ∧ upd.metadata = none then
    .error .noValuesToSet
  else
    let newRows := st.rows.map (fun r =>
      if r.id == id then
        { r with content := upd.content.getD r.content,
                 metadata := match upd.metadata with
                             | some v => some v
                             | none => r.metadata }
      else r)
    .ok (newRows.find? (fun r => r.id == id), { st with rows := newRows })

/-- `MessageRepository.delete`: `DELETE ... WHERE id = $1`, returning whether
any row was removed (`rowCount > 0`). -/
def pgDelete (st : PgState) (id : Nat) : Bool × PgState :=
  let remaining := st.rows.filter (fun r => !(r.id == id))
  (decide (remaining.length < st.rows.length), { st with rows := remaining })

/-- A failure of the cache store (connection error, timeout). With the
`failing` flag set on `RedisState`, every cache call raises this. -/
inductive CacheError where
  | connectionError
deriving DecidableEq

/-- The raw string stored under a `messages:user:{userId}` key, abstracted:
`JSON.parse` either yields a message list or throws. -/
inductive CachePayload where
  | wellFormed (msgs : List Message)
  | malformed
deriving DecidableEq

/-- One cache entry: its payload and its remaining TTL in seconds. -/
structure CacheEntry where
  payload : CachePayload
  ttl : Nat
deriving DecidableEq

/-- State of the Redis key space restricted to the `messages:user:` prefix:
an association list from user id (the key is derived deterministically from
it) to entry. `failing = true` forces every operation to fail. -/
structure RedisState where
  entries : List (Nat × CacheEntry)
  failing : Bool
deriving DecidableEq

/-- `MESSAGE_TTL = 20 * 60` seconds (src/unnamed/part_006). -/
def MESSAGE_TTL : Nat := 20 * 60

/-- Lookup of the entry stored under the key derived from `userId`. -/
def RedisState.lookup (rs : RedisState) (userId : Nat) : Option CacheEntry :=
  (rs.entries.find? (fun e => e.1 == userId)).map Prod.snd

/-- Store a value under the key derived from `userId`, replacing any
previous value. -/
def RedisState.store (rs : RedisState) (userId : Nat) (e : CacheEntry) :
    RedisState :=
  { rs with entries := (userId, e) :: rs.entries.filter (fun p => !(p.1 == userId)) }

/-- `RedisClient.setUserMessages`: `SETEX key MESSAGE_TTL json` — overwrite
the list with a fresh TTL of `MESSAGE_TTL` seconds. -/
def setUserMessages (rs : RedisState) (userId : Nat) (msgs : List Message) :
    Except CacheError (Unit × RedisState) :=
  if rs.failing then .error .connectionError
  else .ok ((), rs.store userId ⟨.wellFormed msgs, MESSAGE_TTL⟩)

/-- `RedisClient.getUserMessages`: `GET key`; an absent value yields `null`,
and a payload on which `JSON.parse` throws is caught, logged and also yields
`null` — never an error. -/
def getUserMessages (rs : RedisState) (userId : Nat) :
    Except CacheError (Option (List Message) × RedisState) :=
  if rs.failing then .error .connectionError
  else
    match rs.lookup userId with
    | none => .ok (none, rs)
    | some e =>
      match e.payload with
      | .wellFormed msgs => .ok (some msgs, rs)
      | .malformed => .ok (none, rs)

/-- `RedisClient.addUserMessage`: read the existing list (`|| []` on `null`),
append the message, and store the result back with a refreshed TTL. -/
def addUserMessage (rs : RedisState) (userId : Nat) (msg : Message) :
    Except CacheError (Unit × RedisState) :=
  match getUserMessages rs userId with
  | .error e => .error e
  | .ok (existing, rs1) =>
    setUserMessages rs1 userId (existing.getD [] ++ [msg])

/-- `RedisClient.refreshMessagesTTL`: `EXPIRE key MESSAGE_TTL`; returns
whether the key existed. -/
def refreshMessagesTTL (rs : RedisState) (userId : Nat) :
    Except CacheError (Bool × RedisState) :=
  if rs.failing then .error .connectionError
  else
    match rs.lookup userId with
    | none => .ok (false, rs)
    | some e => .ok (true, rs.store userId { e with ttl := MESSAGE_TTL })

/-- `RedisClient.getUsersWithExpiringMessages`: scan all `messages:user:*`
keys and keep the user ids whose TTL satisfies `0 < ttl ≤ threshold`. -/
def getUsersWithExpiringMessages (rs : RedisState) (threshold : Nat) :
    Except CacheError (List Nat × RedisState) :=
  if rs.failing then .error .connectionError
  else
    .ok ((rs.entries.filter
            (fun p => decide (0 < p.2.ttl) && decide (p.2.ttl ≤ threshold))).map
           Prod.fst,
         rs)

/-- Errors observable from `CachedMessageRepository` operations: a propagated
durable-store error or a propagated cache error. -/
inductive RepoError where
  | db (e : DbError)
  | cache (e : CacheError)
deriving DecidableEq

/-- Combined state of the two storage backends. -/
structure Sys where
  pg : PgState
  redis : RedisState
deriving DecidableEq

/-- `CachedMessageRepository.create`: insert into PostgreSQL first; on
success, append the created message to the owner's cached list. The cache
append runs detached with a `.catch` that only logs, so a cache failure
leaves the cache unchanged and never surfaces; the sequential model applies
the append (or nothing, on cache error) before returning. -/
def cachedCreate (s : Sys) (input : MessageInput) :
    Except RepoError (Message × Sys) :=
  match pgCreate s.pg input with
  | .error e => .error (.db e)
  | .ok (created, pg1) =>
    let redis1 := match addUserMessage s.redis created.userId created with
      | .ok (_, rs) => rs
      | .error _ => s.redis
    .ok (created, ⟨pg1, redis1⟩)

/-- `CachedMessageRepository.findById`: always served from PostgreSQL (the
cache is organized by user id, not message id). -/
def cachedFindById (s : Sys) (id : Nat) : Option Message × Sys :=
  let r := pgFindById s.pg id
  (r.1, ⟨r.2, s.redis⟩)

/-- JS `xs.slice(-limit)`: for `limit = 0` the start index `-0` normalizes
to `0` and the whole array is returned; otherwise the last `limit`
elements. -/
def sliceNeg (xs : List Message) (limit : Nat) : List Message :=
  if limit = 0 then xs else xs.drop (xs.length - limit)

/-- The cache-miss branch of `CachedMessageRepository.findByUserId`: load
from PostgreSQL; if the result is non-empty, populate the cache (an error
there is caught by the surrounding try and answered by a fresh PostgreSQL
read). -/
def cacheMissPath (pg : PgState) (rs : RedisState) (userId limit : Nat) :
    List Message × Sys :=
  let r := pgFindByUserId pg userId limit
  if r.1.length > 0 then
    match setUserMessages rs userId r.1 with
    | .error _ =>
      let r2 := pgFindByUserId r.2 userId limit
      (r2.1, ⟨r2.2, rs⟩)
    | .ok (_, rs2) => (r.1, ⟨r.2, rs2⟩)
  else (r.1, ⟨r.2, rs⟩)

/-- `CachedMessageRepository.findByUserId` (message-sync.job.ts:162-189):
try the cache; a non-null, non-empty cached list is a hit — refresh its TTL
and return `cached.slice(-limit)`; otherwise fall through to PostgreSQL and
populate the cache. Any cache error is caught and answered by a plain
PostgreSQL read; no cache error reaches the caller. -/
def cachedFindByUserId (s : Sys) (userId : Nat) (limit : Nat) :
    List Message × Sys :=
  match getUserMessages s.redis userId with
  | .error _ =>
    let r := pgFindByUserId s.pg userId limit
    (r.1, ⟨r.2, s.redis⟩)
  | .ok (some (m :: ms), rs1) =>
    match refreshMessagesTTL rs1 userId with
    | .error _ =>
      let r := pgFindByUserId s.pg userId limit
      (r.1, ⟨r.2, rs1⟩)
    | .ok (_, rs2) => (sliceNeg (m :: ms) limit, ⟨s.pg, rs2⟩)
  | .ok (some [], rs1) => cacheMissPath s.pg rs1 userId limit
  | .ok (none, rs1) => cacheMissPath s.pg rs1 userId limit

/-- `CachedMessageRepository.update`: update PostgreSQL; if a row was
updated and the owner has a cached list (even an empty one — `if (cached)`
is true for `[]`), rewrite the matching entry with `{ ...msg, ...updates }`.
The Redis calls here are not wrapped in try/catch, so their errors
propagate. -/
def cachedUpdate (s : Sys) (id : Nat) (upd : MessageUpdate) :
    Except RepoError (Option Message × Sys) :=
  match pgUpdate s.pg id upd with
  | .error e => .error (.db e)
  | .ok (none, pg1) => .ok (none, ⟨pg1, s.redis⟩)
  | .ok (some updated, pg1) =>
    match getUserMessages s.redis updated.userId with
    | .error e => .error (.cache e)
    | .ok (none, rs1) => .ok (some updated, ⟨pg1, rs1⟩)
    | .ok (some cached, rs1) =>
      let updatedCache := cached.map (fun msg =>
        if msg.id == id then mergeUpdate msg upd else msg)
      match setUserMessages rs1 updated.userId updatedCache with
      | .error e => .error (.cache e)
      | .ok (_, rs2) => .ok (some updated, ⟨pg1, rs2⟩)

/-- `CachedMessageRepository.delete`: resolve the owner via a PostgreSQL
lookup, filter the message out of the owner's cached list when one exists,
then delete the row from PostgreSQL. -/
def cachedDelete (s : Sys) (id : Nat) : Except RepoError (Bool × Sys) :=
  let f := pgFindById s.pg id
  match f.1 with
  | some message =>
    match getUserMessages s.redis message.userId with
    | .error e => .error (.cache e)
    | .ok (none, rs1) =>
      let d := pgDelete f.2 id
      .ok (d.1, ⟨d.2, rs1⟩)
    | .ok (some cached, rs1) =>
      match setUserMessages rs1 message.userId
          (cached.filter (fun msg => !(msg.id == id))) with
      | .error e => .error (.cache e)
      | .ok (_, rs2) =>
        let d := pgDelete f.2 id
        .ok (d.1, ⟨d.2, rs2⟩)
  | none =>
    let d := pgDelete f.2 id
    .ok (d.1, ⟨d.2, s.redis⟩)

/-- `CachedMessageRepository.warmCache`: load the 100 most recent durable
messages and, if there are any, overwrite the cached list with them (fresh
TTL). With no durable messages the cache is left untouched. -/
def warmCache (s : Sys) (userId : Nat) : Except RepoError (Unit × Sys) :=
  let r := pgFindByUserId s.pg userId 100
  if r.1.length > 0 then
    match setUserMessages s.redis userId r.1 with
    | .error e => .error (.cache e)
    | .ok (_, rs1) => .ok ((), ⟨r.2, rs1⟩)
  else .ok ((), ⟨r.2, s.redis⟩)

/-- The create payload built by the sync loop for a cached message: the
original id is passed explicitly so re-running the sync is idempotent. -/
def syncInput (msg : Message) : MessageInput :=
  { idOpt := some msg.id, conversationId := msg.conversationId,
    userId := msg.userId, type := msg.type,
    content := msg.content, metadata := msg.metadata }

/-- One iteration of the insert loop of `syncToPostgres`: create the missing
message in PostgreSQL preserving its original id; a failed insert (e.g. a
primary-key violation) is caught, logged and skipped. -/
def syncStep (pg : PgState) (msg : Message) : PgState :=
  match pgCreate pg (syncInput msg) with
  | .ok (_, st) => st
  | .error _ => pg

/-- The per-message insert loop of `syncToPostgres` over the missing
messages. -/
def syncLoop (pg : PgState) (newMessages : List Message) : PgState :=
  match newMessages with
  | [] => pg
  | msg :: rest => syncLoop (syncStep pg msg) rest

/-- `CachedMessageRepository.syncToPostgres` (message-sync.job.ts:252-289):
read the cached list; compare against the user's durable messages
(`findByUserId(userId, 1000)`) by id; insert each cached message whose id
is not among them, preserving the original id. -/
def syncToPostgres (s : Sys) (userId : Nat) : Except RepoError (Unit × Sys) :=
  match getUserMessages s.redis userId with
  | .error e => .error (.cache e)
  | .ok (none, rs1) => .ok ((), ⟨s.pg, rs1⟩)
  | .ok (some [], rs1) => .ok ((), ⟨s.pg, rs1⟩)
  | .ok (some (m :: ms), rs1) =>
    let r := pgFindByUserId s.pg userId 1000
    let existingIds := r.1.map (fun x => x.id)
    let newMessages := (m :: ms).filter
      (fun msg => !(existingIds.contains msg.id))
    .ok ((), ⟨syncLoop r.2 newMessages, rs1⟩)

/-- `TTL_THRESHOLD = 5 * 60` seconds (message-sync.job.ts). -/
def TTL_THRESHOLD : Nat := 5 * 60

/-- The per-user loop of `MessageSyncJob.syncMessages`: each user's failure
is caught and logged independently, leaving that user's sync without
effect. -/
def syncUsers (s : Sys) (userIds : List Nat) : Sys :=
  match userIds with
  | [] => s
  | u :: rest =>
    let s1 := match syncToPostgres s u with
      | .ok (_, s2) => s2
      | .error _ => s
    syncUsers s1 rest

/-- `MessageSyncJob.syncMessages`: enumerate users whose cached list has
TTL ≤ `TTL_THRESHOLD`, then sync each one; the whole cycle is wrapped in a
try/catch that swallows errors. -/
def syncMessages (s : Sys) : Sys :=
  match getUsersWithExpiringMessages s.redis TTL_THRESHOLD with
  | .error _ => s
  | .ok (expiringUsers, rs1) => syncUsers ⟨s.pg, rs1⟩ expiringUsers

/-- `MessageSyncJob.triggerSync`: the manual trigger runs the same
`syncMessages` procedure synchronously. -/
def triggerSync (s : Sys) : Sys := syncMessages s

/-- Lifecycle state of `MessageSyncJob`: the nullable `intervalId` handle,
a fresh-handle counter modelling `setInterval` allocation, and the set of
intervals created and not yet cleared. (The immediate `syncMessages()` call
performed by `start` acts on the storage state and is modelled separately
by `triggerSync`.) -/
structure JobState where
  intervalId : Option Nat
  nextTimerId : Nat
  activeTimers : List Nat
deriving DecidableEq

/-- `MessageSyncJob.start`: if `intervalId` is already set, warn and return
(no second ticker); otherwise allocate a new interval and record its
handle. -/
def JobState.start (j : JobState) : JobState :=
  match j.intervalId with
  | some _ => j
  | none =>
    { intervalId := some j.nextTimerId,
      nextTimerId := j.nextTimerId + 1,
      activeTimers := j.activeTimers ++ [j.nextTimerId] }

/-- `MessageSyncJob.stop`: if an interval is set, clear it and null the
handle; otherwise do nothing. -/
def JobState.stop (j : JobState) : JobState :=
  match j.intervalId with
  | some tid =>
    { j with intervalId := none,
             activeTimers := j.activeTimers.filter (fun t => !(t == tid)) }
  | none => j

/-- The job as constructed: `intervalId = null`, no timers. -/
def JobState.initial : JobState := ⟨none, 0, []⟩

/-- The Running state of the job's state machine: an interval handle is
set. -/
def JobState.Running (j : JobState) : Prop := j.intervalId.isSome

/-- Invariant of the job lifecycle: the set of live intervals is exactly
the content of the nullable handle. -/
def JobState.Inv (j : JobState) : Prop :=
  j.activeTimers = j.intervalId.toList

/-- Some row of `rows` carries the id `i`. -/
def hasId (rows : List Message) (i : Nat) : Prop := ∃ r ∈ rows, r.id = i

/-! ### Concrete scenarios -/

/-- Scenario plumbing: run a `create` and keep the resulting state. -/
def runCreate (s : Sys) (inp : MessageInput) : Sys :=
  match cachedCreate s inp with
  | .ok (_, s1) => s1
  | .error _ => s

/-- Scenario plumbing: run a `delete` and keep the resulting state. -/
def runDelete (s : Sys) (id : Nat) : Sys :=
  match cachedDelete s id with
  | .ok (_, s1) => s1
  | .error _ => s

/-- First scenario input: user 7 sends "m1" in conversation 10. -/
def inp1 : MessageInput := ⟨none, 10, 7, .user, "m1", none⟩

/-- Second scenario input. -/
def inp2 : MessageInput := ⟨none, 10, 7, .ai, "m2", none⟩

/-- Third scenario input. -/
def inp3 : MessageInput := ⟨none, 10, 7, .user, "m3", none⟩

/-- The message durably created from `inp1` on a fresh store. -/
def msg1 : Message := ⟨1, 10, 7, .user, "m1", 0, none⟩

/-- The message durably created from `inp2` next. -/
def msg2 : Message := ⟨2, 10, 7, .ai, "m2", 1, none⟩

/-- The message durably created from `inp3` last. -/
def msg3 : Message := ⟨3, 10, 7, .user, "m3", 2, none⟩

/-- The message durably created from `inp1` on a store already holding
`msg1`–`msg3`. -/
def msg4 : Message := ⟨4, 10, 7, .user, "m1", 3, none⟩

/-- Fresh system: empty durable store, empty healthy cache. -/
def sys0 : Sys := ⟨⟨[], 1, 0, 0⟩, ⟨[], false⟩⟩

/-- State after user 7 created "m1". -/
def sys1 : Sys := runCreate sys0 inp1

/-- State after user 7 also created "m2". -/
def sys2 : Sys := runCreate sys1 inp2

/-- State after user 7 also created "m3". -/
def sys3 : Sys := runCreate sys2 inp3

/-- State after message id 2 ("m2") was deleted. -/
def sys4 : Sys := runDelete sys3 2

/-- Reconciliation scenario, message a: durable and cached. -/
def msgA : Message := ⟨1, 10, 7, .user, "a", 0, none⟩

/-- Reconciliation scenario, message b: cached only. -/
def msgB : Message := ⟨2, 10, 7, .ai, "b", 0, none⟩

/-- Reconciliation scenario, message c: cached only. -/
def msgC : Message := ⟨3, 10, 7, .user, "c", 0, none⟩

/-- Reconciliation scenario: only `msgA` is durable while the cached list
holds ids {1,2,3}; the entry is close to expiry (TTL 200 s, under the
5-minute threshold), so the sync job will pick user 7 up. -/
def sysSync : Sys :=
  ⟨⟨[msgA], 4, 1, 0⟩, ⟨[(7, ⟨.wellFormed [msgA, msgB, msgC], 200⟩)], false⟩⟩

/-- A healthy cache whose entry for user 7 has decayed to 3 s of TTL, with
an empty durable store. -/
def sysDecayed : Sys := ⟨⟨[], 1, 0, 0⟩, ⟨[(7, ⟨.wellFormed [msg1], 3⟩)], false⟩⟩

/-- A stale cached list for user 7 while the durable store has no rows for
that user at all. -/
def sysStale : Sys := ⟨⟨[], 1, 0, 0⟩, ⟨[(7, ⟨.wellFormed [msg1], 42⟩)], false⟩⟩

/-- Durable store under a cache outage (`failing = true`), holding the
three scenario messages. -/
def sysOutage : Sys := ⟨⟨[msg1, msg2, msg3], 4, 3, 0⟩, ⟨[], true⟩⟩

/-- Generator for the warm-up bound scenario: 150 durable messages of user
7 with increasing timestamps. -/
def warmMsg (i : Nat) : Message := ⟨i + 1, 10, 7, .user, "w", i, none⟩

/-- The 150 durable rows of the warm-up bound scenario. -/
def warmRows : List Message := (List.range 150).map warmMsg

/-- System with 150 durable messages for user 7 and an empty healthy
cache. -/
def sysWarm : Sys := ⟨⟨warmRows, 151, 150, 0⟩, ⟨[], false⟩⟩

/-! ### Helper lemmas about the durable store -/

lemma hasId_iff_any (rows : List Message) (i : Nat) :
    hasId rows i ↔ rows.any (fun r => r.id == i) = true := by
  simp [hasId, List.any_eq_true]

lemma pgFindByUserId_fst (st : PgState) (u n : Nat) :
    (pgFindByUserId st u n).1 =
      (((st.rows.filter (fun r => r.userId == u)).insertionSort tsGe).take
        n).reverse := rfl

lemma pgFindByUserId_snd (st : PgState) (u n : Nat) :
    (pgFindByUserId st u n).2 = { st with reads := st.reads + 1 } := rfl

/-- The durable read is sorted by ascending timestamp. -/
lemma pgFindByUserId_sorted (st : PgState) (u n : Nat) :
    List.Sorted (fun a b : Message => a.timestamp ≤ b.timestamp)
      (pgFindByUserId st u n).1 := by
  rw [pgFindByUserId_fst, List.Sorted, List.pairwise_reverse]
  exact List.Pairwise.sublist (List.take_sublist n _)
    (List.sorted_insertionSort tsGe _)

/-- Every message returned by the durable read is a stored row of the
requested user. -/
lemma pgFindByUserId_mem (st : PgState) (u n : Nat) :
    ∀ m ∈ (pgFindByUserId st u n).1, m ∈ st.rows ∧ m.userId = u := by
  intro m hm
  rw [pgFindByUserId_fst, List.mem_reverse] at hm
  have hm2 : m ∈ (st.rows.filter (fun r => r.userId == u)).insertionSort tsGe :=
    (List.take_sublist n _).mem hm
  have hm3 : m ∈ st.rows.filter (fun r => r.userId == u) :=
    (List.perm_insertionSort tsGe _).mem_iff.mp hm2
  have := List.mem_filter.mp hm3
  exact ⟨this.1, by simpa using this.2⟩

/-- The durable read returns `min n (number of user rows)` messages. -/
lemma pgFindByUserId_length (st : PgState) (u n : Nat) :
    (pgFindByUserId st u n).1.length =
      min n (st.rows.filter (fun r => r.userId == u)).length := by
  rw [pgFindByUserId_fst, List.length_reverse, List.length_take,
    List.length_insertionSort]

/-- Maximality: any user row left out of the durable read is no more recent
than any returned one. -/
lemma pgFindByUserId_maximal (st : PgState) (u n : Nat) :
    ∀ m ∈ st.rows, m.userId = u → m ∉ (pgFindByUserId st u n).1 →
      ∀ r ∈ (pgFindByUserId st u n).1, m.timestamp ≤ r.timestamp := by
  intro m hm hmu hnot r hr
  rw [pgFindByUserId_fst, List.mem_reverse] at hnot hr
  set srt := (st.rows.filter (fun r => r.userId == u)).insertionSort tsGe with hsrt
  have hmem : m ∈ srt := by
    apply (List.perm_insertionSort tsGe _).mem_iff.mpr
    exact List.mem_filter.mpr ⟨hm, by simpa using hmu⟩
  have hdrop : m ∈ srt.drop n := by
    have := (List.take_append_drop n srt) ▸ hmem
    rcases List.mem_append.mp this with h | h
    · exact absurd h hnot
    · exact h
  have hpw : List.Pairwise tsGe srt := List.sorted_insertionSort tsGe _
  have hsplit := (@List.pairwise_append _ tsGe (srt.take n) (srt.drop n)).mp
    (by rw [List.take_append_drop]; exact hpw)
  exact hsplit.2.2 r hr m hdrop

/-- Unpacking a successful durable insert. -/
lemma pgCreate_ok {st : PgState} {input : MessageInput} {c : Message}
    {st1 : PgState} (h : pgCreate st input = .ok (c, st1)) :
    st1.rows = st.rows ++ [c] ∧ c.content = input.content ∧
      c.type = input.type ∧ c.userId = input.userId ∧
      c.conversationId = input.conversationId ∧
      c.metadata = input.metadata ∧
      c.id = input.idOpt.getD st.nextId ∧ c.timestamp = st.now ∧
      st.rows.find? (fun r => r.id == c.id) = none := by
  unfold pgCreate at h
  by_cases hany : st.rows.any
      (fun r => r.id == input.idOpt.getD st.nextId) = true
  · simp only [hany, if_true] at h
    cases h
  · simp only [hany] at h
    rw [if_neg (by simp [hany])] at h
    injection h with h2
    injection h2 with hc hst
    subst hc
    subst hst
    refine ⟨rfl, rfl, rfl, rfl, rfl, rfl, rfl, rfl, ?_⟩
    rw [List.find?_eq_none]
    intro x hx hbeq
    exact hany (List.any_eq_true.mpr ⟨x, hx, hbeq⟩)

/-- A failed durable insert can only be a primary-key violation: the chosen
id is already present. -/
lemma pgCreate_error {st : PgState} {input : MessageInput} {e : DbError}
    (h : pgCreate st input = .error e) :
    st.rows.any (fun r => r.id == input.idOpt.getD st.nextId) = true := by
  unfold pgCreate at h
  by_cases hany : st.rows.any
      (fun r => r.id == input.idOpt.getD st.nextId) = true
  · exact hany
  · rw [if_neg (by simp [hany])] at h
    cases h

/-- After a successful insert the created row is durably retrievable. -/
lemma pgFindById_after_create {st : PgState} {input : MessageInput}
    {c : Message} {st1 : PgState} (h : pgCreate st input = .ok (c, st1)) :
    (pgFindById st1 c.id).1 = some c := by
  obtain ⟨hrows, -, -, -, -, -, -, -, hnone⟩ := pgCreate_ok h
  show st1.rows.find? (fun r => r.id == c.id) = some c
  rw [hrows, List.find?_append, hnone]
  simp

/-! ### Helper lemmas about the reconciliation loop -/

/-- A sync step on a message whose id is already durably present is a
no-op: the insert hits the primary-key constraint. -/
lemma syncStep_eq_of_present {pg : PgState} {msg : Message}
    (h : hasId pg.rows msg.id) : syncStep pg msg = pg := by
  unfold syncStep
  cases hc : pgCreate pg (syncInput msg) with
  | ok v =>
    obtain ⟨c, st1⟩ := v
    obtain ⟨-, -, -, -, -, -, hid, -, hfind⟩ := pgCreate_ok hc
    exfalso
    obtain ⟨r, hr, hrid⟩ := h
    have hnone := List.find?_eq_none.mp hfind r hr
    apply hnone
    have : c.id = msg.id := by simpa [syncInput] using hid
    simp [hrid, this]
  | error e => rfl

/-- Ids after one sync step: the union of the previous ids and the id of
the attempted message. -/
lemma syncStep_hasId (pg : PgState) (msg : Message) (i : Nat) :
    hasId (syncStep pg msg).rows i ↔ hasId pg.rows i ∨ msg.id = i := by
  unfold syncStep
  cases hc : pgCreate pg (syncInput msg) with
  | ok v =>
    obtain ⟨c, st1⟩ := v
    obtain ⟨hrows, -, -, -, -, -, hid, -, -⟩ := pgCreate_ok hc
    have hcid : c.id = msg.id := by simpa [syncInput] using hid
    simp only [hrows, hasId, List.mem_append, List.mem_singleton]
    constructor
    · rintro ⟨r, hr | hr, hrid⟩
      · exact Or.inl ⟨r, hr, hrid⟩
      · subst hr
        exact Or.inr (hcid ▸ hrid)
    · rintro (⟨r, hr, hrid⟩ | hmi)
      · exact ⟨r, Or.inl hr, hrid⟩
      · exact ⟨c, Or.inr rfl, hcid.trans hmi⟩
  | error e =>
    have hany := pgCreate_error hc
    have hpresent : hasId pg.rows msg.id := by
      rw [hasId_iff_any]
      simpa [syncInput] using hany
    simp only []
    constructor
    · exact fun h => Or.inl h
    · rintro (h | rfl)
      · exact h
      · exact hpresent

/-- One sync step never introduces a duplicate id. -/
lemma syncStep_nodup (pg : PgState) (msg : Message)
    (h : (pg.rows.map (fun r => r.id)).Nodup) :
    ((syncStep pg msg).rows.map (fun r => r.id)).Nodup := by
  unfold syncStep
  cases hc : pgCreate pg (syncInput msg) with
  | ok v =>
    obtain ⟨c, st1⟩ := v
    obtain ⟨hrows, -, -, -, -, -, -, -, hfind⟩ := pgCreate_ok hc
    simp only [hrows, List.map_append, List.map_cons, List.map_nil]
    rw [List.nodup_append]
    refine ⟨h, List.nodup_singleton _, ?_⟩
    intro x hx hx2
    simp only [List.mem_singleton] at hx2
    subst hx2
    rcases List.mem_map.mp hx with ⟨r, hr, hrid⟩
    exact List.find?_eq_none.mp hfind r hr (by simp [hrid])
  | error e => exact h

/-- Ids after the insert loop: the union of the previous ids and the ids of
the messages fed to the loop. -/
lemma syncLoop_hasId (msgs : List Message) :
    ∀ (pg : PgState) (i : Nat),
      hasId (syncLoop pg msgs).rows i ↔
        hasId pg.rows i ∨ ∃ m ∈ msgs, m.id = i := by
  induction msgs with
  | nil => intro pg i; simp [syncLoop]
  | cons msg rest ih =>
    intro pg i
    rw [syncLoop, ih, syncStep_hasId]
    simp only [List.mem_cons]
    constructor
    · rintro ((h | rfl) | ⟨m, hm, hmi⟩)
      · exact Or.inl h
      · exact Or.inr ⟨msg, Or.inl rfl, rfl⟩
      · exact Or.inr ⟨m, Or.inr hm, hmi⟩
    · rintro (h | ⟨m, rfl | hm, hmi⟩)
      · exact Or.inl (Or.inl h)
      · exact Or.inl (Or.inr hmi)
      · exact Or.inr ⟨m, hm, hmi⟩

/-- The insert loop never introduces a duplicate id. -/
lemma syncLoop_nodup (msgs : List Message) :
    ∀ pg : PgState, (pg.rows.map (fun r => r.id)).Nodup →
      ((syncLoop pg msgs).rows.map (fun r => r.id)).Nodup := by
  induction msgs with
  | nil => intro pg h; simpa [syncLoop] using h
  | cons msg rest ih =>
    intro pg h
    rw [syncLoop]
    exact ih _ (syncStep_nodup pg msg h)

/-- If every message fed to the insert loop already has its id durably
present, the loop changes nothing. -/
lemma syncLoop_fixed (msgs : List Message) :
    ∀ pg : PgState, (∀ m ∈ msgs, hasId pg.rows m.id) →
      syncLoop pg msgs = pg := by
  induction msgs with
  | nil => intro pg _; rfl
  | cons msg rest ih =>
    intro pg h
    rw [syncLoop, syncStep_eq_of_present (h msg (List.mem_cons_self _ _))]
    exact ih pg (fun m hm => h m (List.mem_cons_of_mem _ hm))

/-! ### Reduction lemmas for the cache operations -/

lemma getUserMessages_failing (rs : RedisState) (u : Nat)
    (h : rs.failing = true) :
    getUserMessages rs u = .error .connectionError := by
  simp [getUserMessages, h]

lemma getUserMessages_wellFormed (rs : RedisState) (u : Nat)
    (msgs : List Message) (ttl : Nat) (hfail : rs.failing = false)
    (hl : rs.lookup u = some ⟨.wellFormed msgs, ttl⟩) :
    getUserMessages rs u = .ok (some msgs, rs) := by
  simp [getUserMessages, hfail, hl]

lemma getUserMessages_none (rs : RedisState) (u : Nat)
    (hfail : rs.failing = false) (hl : rs.lookup u = none) :
    getUserMessages rs u = .ok (none, rs) := by
  simp [getUserMessages, hfail, hl]

lemma getUserMessages_malformed (rs : RedisState) (u : Nat) (ttl : Nat)
    (hfail : rs.failing = false)
    (hl : rs.lookup u = some ⟨.malformed, ttl⟩) :
    getUserMessages rs u = .ok (none, rs) := by
  simp [getUserMessages, hfail, hl]

lemma setUserMessages_ok (rs : RedisState) (u : Nat) (msgs : List Message)
    (hfail : rs.failing = false) :
    setUserMessages rs u msgs =
      .ok ((), rs.store u ⟨.wellFormed msgs, MESSAGE_TTL⟩) := by
  simp [setUserMessages, hfail]

lemma addUserMessage_failing (rs : RedisState) (u : Nat) (m : Message)
    (h : rs.failing = true) :
    addUserMessage rs u m = .error .connectionError := by
  rw [addUserMessage, getUserMessages_failing rs u h]

lemma refreshMessagesTTL_found (rs : RedisState) (u : Nat) (e : CacheEntry)
    (hfail : rs.failing = false) (hl : rs.lookup u = some e) :
    refreshMessagesTTL rs u =
      .ok (true, rs.store u ⟨e.payload, MESSAGE_TTL⟩) := by
  simp [refreshMessagesTTL, hfail, hl]

lemma lookup_store_self (rs : RedisState) (u : Nat) (e : CacheEntry) :
    (rs.store u e).lookup u = some e := by
  simp [RedisState.store, RedisState.lookup, List.find?]

lemma store_failing (rs : RedisState) (u : Nat) (e : CacheEntry) :
    (rs.store u e).failing = rs.failing := rfl

/-! ### Reduction lemmas for the caching repository -/

/-- `create` under a cache outage: the durable result is returned and the
cache is left untouched. -/
lemma cachedCreate_failing {pg : PgState} {rs : RedisState}
    {input : MessageInput} {c : Message} {pg1 : PgState}
    (hfail : rs.failing = true) (h : pgCreate pg input = .ok (c, pg1)) :
    cachedCreate ⟨pg, rs⟩ input = .ok (c, ⟨pg1, rs⟩) := by
  simp [cachedCreate, h, addUserMessage_failing rs c.userId c hfail]

/-- `findByUserId` under a cache outage answers from the durable store. -/
lemma cachedFindByUserId_failing (pg : PgState) (rs : RedisState) (u n : Nat)
    (h : rs.failing = true) :
    cachedFindByUserId ⟨pg, rs⟩ u n =
      ((pgFindByUserId pg u n).1, ⟨(pgFindByUserId pg u n).2, rs⟩) := by
  unfold cachedFindByUserId
  rw [show (Sys.mk pg rs).redis = rs from rfl, getUserMessages_failing rs u h]

/-- The miss branch: durable read, then cache population when non-empty. -/
lemma cacheMissPath_eq (pg : PgState) (rs : RedisState) (u n : Nat)
    (hfail : rs.failing = false) :
    cacheMissPath pg rs u n =
      ((pgFindByUserId pg u n).1,
       ⟨(pgFindByUserId pg u n).2,
        if 0 < (pgFindByUserId pg u n).1.length then
          rs.store u ⟨.wellFormed (pgFindByUserId pg u n).1, MESSAGE_TTL⟩
        else rs⟩) := by
  unfold cacheMissPath
  by_cases hlen : 0 < (pgFindByUserId pg u n).1.length
  · rw [if_pos hlen, setUserMessages_ok rs u _ hfail, if_pos hlen]
  · rw [if_neg hlen, if_neg hlen]

/-- An absent cache entry sends `findByUserId` down the miss branch. -/
lemma cachedFindByUserId_no_entry (pg : PgState) (rs : RedisState) (u n : Nat)
    (hfail : rs.failing = false) (hl : rs.lookup u = none) :
    cachedFindByUserId ⟨pg, rs⟩ u n = cacheMissPath pg rs u n := by
  unfold cachedFindByUserId
  rw [show (Sys.mk pg rs).redis = rs from rfl,
    getUserMessages_none rs u hfail hl]

/-- A cached empty list also sends `findByUserId` down the miss branch. -/
lemma cachedFindByUserId_empty_list (pg : PgState) (rs : RedisState)
    (u n : Nat) (ttl : Nat) (hfail : rs.failing = false)
    (hl : rs.lookup u = some ⟨.wellFormed [], ttl⟩) :
    cachedFindByUserId ⟨pg, rs⟩ u n = cacheMissPath pg rs u n := by
  unfold cachedFindByUserId
  rw [show (Sys.mk pg rs).redis = rs from rfl,
    getUserMessages_wellFormed rs u [] ttl hfail hl]

/-- A malformed cached payload also sends `findByUserId` down the miss
branch. -/
lemma cachedFindByUserId_malformed (pg : PgState) (rs : RedisState)
    (u n : Nat) (ttl : Nat) (hfail : rs.failing = false)
    (hl : rs.lookup u = some ⟨.malformed, ttl⟩) :
    cachedFindByUserId ⟨pg, rs⟩ u n = cacheMissPath pg rs u n := by
  unfold cachedFindByUserId
  rw [show (Sys.mk pg rs).redis = rs from rfl,
    getUserMessages_malformed rs u ttl hfail hl]

/-- A non-empty cached list is a hit: the TTL is refreshed to the standard
window and `cached.slice(-limit)` is returned without touching the durable
store. -/
lemma cachedFindByUserId_hit (pg : PgState) (rs : RedisState) (u n : Nat)
    (m : Message) (ms : List Message) (ttl : Nat)
    (hfail : rs.failing = false)
    (hl : rs.lookup u = some ⟨.wellFormed (m :: ms), ttl⟩) :
    cachedFindByUserId ⟨pg, rs⟩ u n =
      (sliceNeg (m :: ms) n,
       ⟨pg, rs.store u ⟨.wellFormed (m :: ms), MESSAGE_TTL⟩⟩) := by
  simp [cachedFindByUserId, getUserMessages_wellFormed rs u (m :: ms) ttl hfail hl,
    refreshMessagesTTL_found rs u ⟨.wellFormed (m :: ms), ttl⟩ hfail hl]

/-- JS `slice(-limit)` on a list no longer than a positive `limit` returns
the whole list. -/
lemma sliceNeg_of_length_le (xs : List Message) (n : Nat)
    (h : xs.length ≤ n) (hn : n ≠ 0) : sliceNeg xs n = xs := by
  unfold sliceNeg
  rw [if_neg hn, Nat.sub_eq_zero_of_le h, List.drop_zero]

/-- Reduction of `syncToPostgres` on a healthy cache holding a non-empty
list: diff against the user's durable messages and run the insert loop. -/
lemma syncToPostgres_wellFormed (pg : PgState) (rs : RedisState) (u : Nat)
    (m : Message) (ms : List Message) (ttl : Nat)
    (hfail : rs.failing = false)
    (hl : rs.lookup u = some ⟨.wellFormed (m :: ms), ttl⟩) :
    syncToPostgres ⟨pg, rs⟩ u =
      .ok ((), ⟨syncLoop (pgFindByUserId pg u 1000).2
        ((m :: ms).filter (fun msg =>
          !(((pgFindByUserId pg u 1000).1.map (fun x => x.id)).contains
            msg.id))), rs⟩) := by
  simp [syncToPostgres, getUserMessages_wellFormed rs u (m :: ms) ttl hfail hl]

/-- Reduction of `syncToPostgres` on a healthy cache holding an empty
list: nothing to do. -/
lemma syncToPostgres_empty (pg : PgState) (rs : RedisState) (u : Nat)
    (ttl : Nat) (hfail : rs.failing = false)
    (hl : rs.lookup u = some ⟨.wellFormed [], ttl⟩) :
    syncToPostgres ⟨pg, rs⟩ u = .ok ((), ⟨pg, rs⟩) := by
  simp [syncToPostgres, getUserMessages_wellFormed rs u [] ttl hfail hl]

/-! ### The claims -/

/-- Claim C1: `create(m)` inserts into the durable store first and returns
the durably created message; after it succeeds, `findById(m.id)` — always
served from the durable store — returns a message equal to `m` in content
and type, regardless of the cache state (so regardless of whether the
subsequent cache append succeeds). -/
theorem claim_C1 (pg : PgState) (rs : RedisState) (input : MessageInput)
    (c : Message) (pg1 : PgState)
    (h : pgCreate pg input = .ok (c, pg1)) :
    (∃ rs1, cachedCreate ⟨pg, rs⟩ input = .ok (c, ⟨pg1, rs1⟩)) ∧
    (∀ rs2, (cachedFindById ⟨pg1, rs2⟩ c.id).1 = some c) ∧
    c.content = input.content ∧ c.type = input.type := by
  obtain ⟨hrows, hcontent, htype, -, -, -, -, -, -⟩ := pgCreate_ok h
  refine ⟨?_, fun rs2 => pgFindById_after_create h, hcontent, htype⟩
  refine ⟨(match addUserMessage rs c.userId c with
           | .ok (_, rs2) => rs2
           | .error _ => rs), ?_⟩
  simp [cachedCreate, h]

/-- Witness for C1 at a concrete input, with a failing cache so the cache
append certainly does not succeed. -/
theorem claim_C1_witness :
    cachedCreate ⟨⟨[], 1, 0, 0⟩, ⟨[], true⟩⟩ inp1 =
      .ok (msg1, ⟨⟨[msg1], 2, 1, 0⟩, ⟨[], true⟩⟩) ∧
    (cachedFindById ⟨⟨[msg1], 2, 1, 0⟩, ⟨[], false⟩⟩ 1).1 = some msg1 ∧
    msg1.content = inp1.content ∧ msg1.type = inp1.type := by
  have h := claim_C1 ⟨[], 1, 0, 0⟩ ⟨[], true⟩ inp1 msg1 ⟨[msg1], 2, 1, 0⟩ rfl
  exact ⟨rfl, h.2.1 ⟨[], false⟩, h.2.2.1, h.2.2.2⟩

/-- Claim C2: with every cache operation failing, `findByUser(U, n)` still
returns the `n` most recent durable messages in ascending timestamp order
(sorted; members of the user's durable rows; `min n count` of them; any
excluded user row is no more recent than any returned one), and `create(m)`
still succeeds and is durably retrievable; no cache error is propagated to
the caller of either operation. -/
theorem claim_C2 (pg : PgState) (rs : RedisState) (u n : Nat)
    (hfail : rs.failing = true) :
    ((cachedFindByUserId ⟨pg, rs⟩ u n).1 = (pgFindByUserId pg u n).1) ∧
    List.Sorted (fun a b : Message => a.timestamp ≤ b.timestamp)
      (cachedFindByUserId ⟨pg, rs⟩ u n).1 ∧
    (∀ m ∈ (cachedFindByUserId ⟨pg, rs⟩ u n).1, m ∈ pg.rows ∧ m.userId = u) ∧
    ((cachedFindByUserId ⟨pg, rs⟩ u n).1.length =
      min n (pg.rows.filter (fun r => r.userId == u)).length) ∧
    (∀ m ∈ pg.rows, m.userId = u → m ∉ (cachedFindByUserId ⟨pg, rs⟩ u n).1 →
      ∀ r ∈ (cachedFindByUserId ⟨pg, rs⟩ u n).1, m.timestamp ≤ r.timestamp) ∧
    (∀ input c pg1, pgCreate pg input = .ok (c, pg1) →
      cachedCreate ⟨pg, rs⟩ input = .ok (c, ⟨pg1, rs⟩) ∧
      (∀ rs2, (cachedFindById ⟨pg1, rs2⟩ c.id).1 = some c)) := by
  have he := cachedFindByUserId_failing pg rs u n hfail
  refine ⟨by rw [he], ?_, ?_, ?_, ?_, ?_⟩
  · rw [he]; exact pgFindByUserId_sorted pg u n
  · rw [he]; exact pgFindByUserId_mem pg u n
  · rw [he]; exact pgFindByUserId_length pg u n
  · rw [he]; exact pgFindByUserId_maximal pg u n
  · intro input c pg1 hcr
    exact ⟨cachedCreate_failing hfail hcr,
      fun rs2 => pgFindById_after_create hcr⟩

/-- Witness for C2: a cache outage over three durable messages; the read
returns the two most recent in order and the create still goes through. -/
theorem claim_C2_witness :
    (cachedFindByUserId ⟨⟨[msg1, msg2, msg3], 4, 3, 0⟩, ⟨[], true⟩⟩ 7 2).1 =
      [msg2, msg3] ∧
    cachedCreate ⟨⟨[msg1, msg2, msg3], 4, 3, 0⟩, ⟨[], true⟩⟩ inp1 =
      .ok (msg4, ⟨⟨[msg1, msg2, msg3, msg4], 5, 4, 0⟩, ⟨[], true⟩⟩) := by
  have h := claim_C2 ⟨[msg1, msg2, msg3], 4, 3, 0⟩ ⟨[], true⟩ 7 2 rfl
  constructor
  · rw [h.1]; rfl
  · exact (h.2.2.2.2.2 inp1 msg4 ⟨[msg1, msg2, msg3, msg4], 5, 4, 0⟩ rfl).1

/-- Claim C3: reconciliation realizes the set difference against the full
durable message set and is idempotent. Generally, a sync run adds exactly
the cached ids to the durable id set (the diff is computed against the
1000 most recent durable messages, but an attempted re-insert of any
already-durable id fails on the primary key and is skipped, so the
successful insertions are exactly the cached ids missing from the full
durable set), never duplicates an id, and a second run with unchanged state
changes no rows. Concretely, with cached ids {1,2,3} of which only 1 is
durable, one `triggerSync` inserts exactly the messages with ids 2 and 3
preserving those ids, and a second run inserts nothing. -/
theorem claim_C3 (pg : PgState) (rs : RedisState) (u : Nat)
    (cached : List Message) (ttl : Nat)
    (hfail : rs.failing = false)
    (hl : rs.lookup u = some ⟨.wellFormed cached, ttl⟩) :
    (∃ pg1, syncToPostgres ⟨pg, rs⟩ u = .ok ((), ⟨pg1, rs⟩) ∧
      (∀ i, hasId pg1.rows i ↔ hasId pg.rows i ∨ ∃ m ∈ cached, m.id = i) ∧
      ((pg.rows.map (fun r => r.id)).Nodup →
        (pg1.rows.map (fun r => r.id)).Nodup) ∧
      (∃ pg2, syncToPostgres ⟨pg1, rs⟩ u = .ok ((), ⟨pg2, rs⟩) ∧
        pg2.rows = pg1.rows)) ∧
    ((triggerSync sysSync).pg.rows =
      [msgA, { msgB with timestamp := 1 }, { msgC with timestamp := 2 }] ∧
     (triggerSync sysSync).pg.rows.map (fun r => r.id) = [1, 2, 3] ∧
     (triggerSync (triggerSync sysSync)).pg.rows =
       (triggerSync sysSync).pg.rows) := by
  refine ⟨?_, rfl, rfl, rfl⟩
  cases cached with
  | nil =>
    refine ⟨pg, syncToPostgres_empty pg rs u ttl hfail hl, ?_, fun h => h,
      pg, syncToPostgres_empty pg rs u ttl hfail hl, rfl⟩
    intro i
    simp
  | cons m ms =>
    set newMsgs := (m :: ms).filter (fun msg =>
      !(((pgFindByUserId pg u 1000).1.map (fun x => x.id)).contains msg.id))
      with hnew
    refine ⟨syncLoop (pgFindByUserId pg u 1000).2 newMsgs,
      syncToPostgres_wellFormed pg rs u m ms ttl hfail hl, ?_⟩
    have hrows2 : (pgFindByUserId pg u 1000).2.rows = pg.rows := rfl
    have hiff : ∀ i, hasId (syncLoop (pgFindByUserId pg u 1000).2
        newMsgs).rows i ↔ hasId pg.rows i ∨ ∃ x ∈ m :: ms, x.id = i := by
      intro i
      rw [syncLoop_hasId newMsgs (pgFindByUserId pg u 1000).2 i]
      constructor
      · rintro (h | ⟨x, hx, hxi⟩)
        · exact Or.inl (by rwa [hrows2] at h)
        · exact Or.inr ⟨x, (List.mem_filter.mp hx).1, hxi⟩
      · rintro (h | ⟨x, hx, hxi⟩)
        · exact Or.inl (by rwa [hrows2])
        · by_cases hc : (((pgFindByUserId pg u 1000).1.map
              (fun y => y.id)).contains x.id) = true
          · left
            rw [hrows2]
            have hmem := List.elem_iff.mp hc
            rcases List.mem_map.mp hmem with ⟨y, hy, hyx⟩
            have := pgFindByUserId_mem pg u 1000 y hy
            exact ⟨y, this.1, by rw [hyx, hxi]⟩
          · right
            refine ⟨x, ?_, hxi⟩
            rw [hnew]
            refine List.mem_filter.mpr ⟨hx, ?_⟩
            simp
            intro y hy hyx
            exact hc (List.elem_iff.mpr (List.mem_map.mpr ⟨y, hy, hyx⟩))
    refine ⟨hiff, ?_, ?_⟩
    · intro hnd
      exact syncLoop_nodup newMsgs (pgFindByUserId pg u 1000).2 hnd
    · set pg1 := syncLoop (pgFindByUserId pg u 1000).2 newMsgs with hpg1
      have hall : ∀ x ∈ m :: ms, hasId pg1.rows x.id := by
        intro x hx
        exact (hiff x.id).mpr (Or.inr ⟨x, hx, rfl⟩)
      set newMsgs2 := (m :: ms).filter (fun msg =>
        !(((pgFindByUserId pg1 u 1000).1.map (fun x => x.id)).contains
          msg.id)) with hnew2
      have hfixed : syncLoop (pgFindByUserId pg1 u 1000).2 newMsgs2 =
          (pgFindByUserId pg1 u 1000).2 := by
        apply syncLoop_fixed
        intro x hx
        have hx2 : x ∈ m :: ms := (List.mem_filter.mp hx).1
        exact hall x hx2
      refine ⟨syncLoop (pgFindByUserId pg1 u 1000).2 newMsgs2,
        syncToPostgres_wellFormed pg1 rs u m ms ttl hfail hl, ?_⟩
      rw [hfixed]
      rfl

/-- Witness for C3: the concrete {a,b,c}/{a} reconciliation scenario. -/
theorem claim_C3_witness :
    (triggerSync sysSync).pg.rows =
      [msgA, { msgB with timestamp := 1 }, { msgC with timestamp := 2 }] ∧
    (triggerSync sysSync).pg.rows.map (fun r => r.id) = [1, 2, 3] ∧
    (triggerSync (triggerSync sysSync)).pg.rows =
      (triggerSync sysSync).pg.rows :=
  (claim_C3 ⟨[msgA], 4, 1, 0⟩
    ⟨[(7, ⟨.wellFormed [msgA, msgB, msgC], 200⟩)], false⟩ 7
    [msgA, msgB, msgC] 200 rfl rfl).2

/-- Counterexample to claim C4 as stated: for user 7 with no prior cache
entry and no durable messages, the first `findByUser(7, 10)` performs a
durable read but does not populate the cache (the durable result is empty),
and the second immediate call performs another durable read (the read
counter reaches 2) instead of the claimed no-durable-read cache hit. -/
theorem claim_C4_cex :
    (cachedFindByUserId sys0 7 10).1 = [] ∧
    (cachedFindByUserId sys0 7 10).2.redis.entries = [] ∧
    (cachedFindByUserId sys0 7 10).2.pg.reads = 1 ∧
    (cachedFindByUserId (cachedFindByUserId sys0 7 10).2 7 10).2.pg.reads =
      2 :=
  ⟨rfl, rfl, rfl, rfl⟩

/-- Claim C4 amended: for every user with no prior cache entry whose
durable read is non-empty, the first `findByUser` performs one durable read,
returns it, and populates the cache with exactly that result; a second
immediate call performs no durable read (cache hit) and returns identical
results. (As stated the claim fails for a user with no durable messages:
the cache is then not populated and the second call reads durably again.) -/
theorem claim_C4 (pg : PgState) (rs : RedisState) (u limit : Nat)
    (hfail : rs.failing = false) (hl : rs.lookup u = none)
    (hne : (pgFindByUserId pg u limit).1 ≠ []) :
    (cachedFindByUserId ⟨pg, rs⟩ u limit).1 = (pgFindByUserId pg u limit).1 ∧
    (cachedFindByUserId ⟨pg, rs⟩ u limit).2.pg.reads = pg.reads + 1 ∧
    (cachedFindByUserId ⟨pg, rs⟩ u limit).2.redis.lookup u =
      some ⟨.wellFormed (pgFindByUserId pg u limit).1, MESSAGE_TTL⟩ ∧
    (cachedFindByUserId (cachedFindByUserId ⟨pg, rs⟩ u limit).2 u limit).1 =
      (cachedFindByUserId ⟨pg, rs⟩ u limit).1 ∧
    (cachedFindByUserId
        (cachedFindByUserId ⟨pg, rs⟩ u limit).2 u limit).2.pg.reads =
      (cachedFindByUserId ⟨pg, rs⟩ u limit).2.pg.reads := by
  obtain ⟨m, ms, hm⟩ : ∃ m ms, (pgFindByUserId pg u limit).1 = m :: ms := by
    cases hcase : (pgFindByUserId pg u limit).1 with
    | nil => exact absurd hcase hne
    | cons a as => exact ⟨a, as, rfl⟩
  have hlim : limit ≠ 0 := by
    intro h0
    apply hne
    rw [pgFindByUserId_fst, h0]
    simp
  have hlen_le : (pgFindByUserId pg u limit).1.length ≤ limit := by
    rw [pgFindByUserId_length]
    exact Nat.min_le_left _ _
  have h1 : cachedFindByUserId ⟨pg, rs⟩ u limit =
      ((pgFindByUserId pg u limit).1,
       ⟨(pgFindByUserId pg u limit).2,
        rs.store u ⟨.wellFormed (pgFindByUserId pg u limit).1,
          MESSAGE_TTL⟩⟩) := by
    rw [cachedFindByUserId_no_entry pg rs u limit hfail hl,
      cacheMissPath_eq pg rs u limit hfail,
      if_pos (List.length_pos.mpr hne)]
  have hslice : sliceNeg (m :: ms) limit = m :: ms := by
    apply sliceNeg_of_length_le
    · rw [← hm]; exact hlen_le
    · exact hlim
  have hhit : cachedFindByUserId
      ⟨(pgFindByUserId pg u limit).2,
       rs.store u ⟨.wellFormed (pgFindByUserId pg u limit).1, MESSAGE_TTL⟩⟩
      u limit =
      (sliceNeg (m :: ms) limit,
       ⟨(pgFindByUserId pg u limit).2,
        (rs.store u ⟨.wellFormed (pgFindByUserId pg u limit).1,
          MESSAGE_TTL⟩).store u ⟨.wellFormed (m :: ms), MESSAGE_TTL⟩⟩) := by
    apply cachedFindByUserId_hit
    · rw [store_failing]; exact hfail
    · rw [← hm]; exact lookup_store_self rs u _
  refine ⟨by rw [h1], by rw [h1]; rfl, ?_, ?_, ?_⟩
  · rw [h1]
    exact lookup_store_self rs u _
  · rw [h1, hhit, hslice, hm]
  · rw [h1, hhit]

/-- Witness for the amended C4: one durable message for user 7; the second
call returns the same result with no further durable read. -/
theorem claim_C4_witness :
    (cachedFindByUserId ⟨⟨[msg1], 2, 1, 0⟩, ⟨[], false⟩⟩ 7 10).1 = [msg1] ∧
    (cachedFindByUserId
      (cachedFindByUserId ⟨⟨[msg1], 2, 1, 0⟩, ⟨[], false⟩⟩ 7 10).2 7 10).1 =
      [msg1] ∧
    (cachedFindByUserId
        (cachedFindByUserId ⟨⟨[msg1], 2, 1, 0⟩, ⟨[], false⟩⟩ 7 10).2
        7 10).2.pg.reads =
      (cachedFindByUserId ⟨⟨[msg1], 2, 1, 0⟩, ⟨[], false⟩⟩ 7 10).2.pg.reads
    := by
  have h := claim_C4 ⟨[msg1], 2, 1, 0⟩ ⟨[], false⟩ 7 10 rfl rfl (by decide)
  refine ⟨by rw [h.1]; rfl, ?_, h.2.2.2.2⟩
  rw [h.2.2.2.1, h.1]
  rfl

/-- Counterexample to claim C5 as stated: a cache hit with `limit = 0` on
the non-empty cached list `[msg1]` returns the whole list (JS `slice(-0)`
is `slice(0)`), not the last 0 entries `[]`. -/
theorem claim_C5_cex :
    (cachedFindByUserId sysDecayed 7 0).1 = [msg1] ∧
    (cachedFindByUserId sysDecayed 7 0).1 ≠ [] :=
  ⟨rfl, by decide⟩

/-- Claim C5 amended: for every user with a non-empty cached list and every
`limit ≥ 1`, a cache hit resets the remaining TTL of the user's cache key
to the standard 1200-second window whatever its prior value, returns the
last `limit` entries of the cached list, and leaves the durable store
untouched. (At `limit = 0` the whole cached list is returned instead —
JS `slice(-0)`.) -/
theorem claim_C5 (pg : PgState) (rs : RedisState) (u limit : Nat)
    (cached : List Message) (ttl : Nat)
    (hfail : rs.failing = false)
    (hl : rs.lookup u = some ⟨.wellFormed cached, ttl⟩)
    (hne : cached ≠ []) (hlim : 1 ≤ limit) :
    (cachedFindByUserId ⟨pg, rs⟩ u limit).1 =
      cached.drop (cached.length - limit) ∧
    (cachedFindByUserId ⟨pg, rs⟩ u limit).2.redis.lookup u =
      some ⟨.wellFormed cached, 1200⟩ ∧
    (cachedFindByUserId ⟨pg, rs⟩ u limit).2.pg = pg := by
  obtain ⟨m, ms, rfl⟩ : ∃ m ms, cached = m :: ms := by
    cases cached with
    | nil => exact absurd rfl hne
    | cons a as => exact ⟨a, as, rfl⟩
  rw [cachedFindByUserId_hit pg rs u limit m ms ttl hfail hl]
  refine ⟨?_, lookup_store_self rs u _, rfl⟩
  show sliceNeg (m :: ms) limit = _
  unfold sliceNeg
  rw [if_neg (by omega)]

/-- Witness for the amended C5: the cached TTL had decayed to 3 seconds;
after the hit it is back to 1200 and the last 2 entries are returned. -/
theorem claim_C5_witness :
    (cachedFindByUserId sysDecayed 7 2).1 = [msg1] ∧
    (cachedFindByUserId sysDecayed 7 2).2.redis.lookup 7 =
      some ⟨.wellFormed [msg1], 1200⟩ := by
  have h := claim_C5 ⟨[], 1, 0, 0⟩ ⟨[(7, ⟨.wellFormed [msg1], 3⟩)], false⟩
    7 2 [msg1] 3 rfl rfl (by decide) (by decide)
  exact ⟨h.1.trans rfl, h.2.1⟩

/-- Counterexample to claim C6 as stated: user 7 has zero durable messages
but a stale cached list with TTL 42 s; `warmCache` succeeds yet leaves the
cached list and its TTL untouched instead of unconditionally overwriting
the list and setting a fresh TTL. -/
theorem claim_C6_cex :
    warmCache sysStale 7 =
      .ok ((), ⟨⟨[], 1, 0, 1⟩, ⟨[(7, ⟨.wellFormed [msg1], 42⟩)], false⟩⟩) :=
  rfl

/-- Claim C6 amended: for every user with at least one durable message,
`warmCache` overwrites the cached list with the most recent 100 durable
messages and sets a fresh 1200-second TTL; with zero durable messages the
cache is left untouched. In particular, with 150 durable messages the
resulting cached list is exactly the 100 most recent. -/
theorem claim_C6 (pg : PgState) (rs : RedisState) (u : Nat)
    (hfail : rs.failing = false)
    (hne : (pgFindByUserId pg u 100).1 ≠ []) :
    (∃ pg1, warmCache ⟨pg, rs⟩ u =
        .ok ((), ⟨pg1,
          rs.store u ⟨.wellFormed (pgFindByUserId pg u 100).1, 1200⟩⟩) ∧
      pg1.rows = pg.rows) ∧
    (warmCache sysWarm 7 =
      .ok ((), ⟨⟨warmRows, 151, 150, 1⟩,
        ⟨[(7, ⟨.wellFormed (warmRows.drop 50), 1200⟩)], false⟩⟩)) ∧
    (warmRows.drop 50).length = 100 := by
  refine ⟨?_, rfl, rfl⟩
  refine ⟨(pgFindByUserId pg u 100).2, ?_, rfl⟩
  simp only [warmCache]
  rw [if_pos (show 0 < (pgFindByUserId pg u 100).1.length from
        List.length_pos.mpr hne),
    setUserMessages_ok rs u _ hfail]
  rfl

/-- Witness for the amended C6 at a one-message store (and the 150/100
warm-up bound from the theorem's concrete conjunct). -/
theorem claim_C6_witness :
    warmCache ⟨⟨[msg1], 2, 1, 0⟩, ⟨[], false⟩⟩ 7 =
      .ok ((), ⟨⟨[msg1], 2, 1, 1⟩,
        ⟨[(7, ⟨.wellFormed [msg1], 1200⟩)], false⟩⟩) ∧
    (warmRows.drop 50).length = 100 := by
  have h := claim_C6 ⟨[msg1], 2, 1, 0⟩ ⟨[], false⟩ 7 rfl (by decide)
  exact ⟨rfl, h.2.2⟩

/-- Claim C7: the concrete scenario. User 7 creates "m1", "m2", "m3" in
order; `findByUser(7, 2)` returns `[msg2, msg3]` in chronological order;
after deleting message id 2 (which `delete` removes from both the cached
list and the durable store), `findByUser(7, 2)` returns `[msg1, msg3]`. -/
theorem claim_C7 :
    cachedCreate sys0 inp1 = .ok (msg1, sys1) ∧
    cachedCreate sys1 inp2 = .ok (msg2, sys2) ∧
    cachedCreate sys2 inp3 = .ok (msg3, sys3) ∧
    (cachedFindByUserId sys3 7 2).1 = [msg2, msg3] ∧
    cachedDelete sys3 2 = .ok (true, sys4) ∧
    sys4.pg.rows = [msg1, msg3] ∧
    sys4.redis.lookup 7 = some ⟨.wellFormed [msg1, msg3], 1200⟩ ∧
    (cachedFindByUserId sys4 7 2).1 = [msg1, msg3] :=
  ⟨rfl, rfl, rfl, rfl, rfl, rfl, rfl, rfl⟩

/-- Claim C8: the job lifecycle follows Stopped → Running (on start) →
Stopped (on stop), and start is idempotent: starting while Running changes
nothing, exactly one interval stays active (never two concurrently in one
process), and stopping while Running cancels it and returns to Stopped. -/
theorem claim_C8 (j : JobState) (hInv : j.Inv) :
    JobState.initial.Inv ∧
    (¬ j.Running → j.start.Running ∧ j.start.activeTimers.length = 1) ∧
    (j.Running → j.start = j ∧ j.start.activeTimers.length = 1) ∧
    j.start.Inv ∧
    (j.Running → ¬ j.stop.Running ∧ j.stop.activeTimers = []) ∧
    j.stop.Inv ∧
    ¬ j.stop.Running := by
  cases j with
  | mk iv nt act =>
    cases iv with
    | none =>
      have hact : act = [] := hInv
      subst hact
      refine ⟨rfl, fun _ => ⟨rfl, rfl⟩, ?_, rfl, ?_, hInv, ?_⟩
      · intro h
        exact absurd h (by simp [JobState.Running])
      · intro h
        exact absurd h (by simp [JobState.Running])
      · simp [JobState.Running, JobState.stop]
    | some t =>
      have hact : act = [t] := hInv
      subst hact
      refine ⟨rfl, ?_, fun _ => ⟨rfl, rfl⟩, hInv, ?_, ?_, ?_⟩
      · intro h
        exact absurd rfl h
      · intro h
        constructor
        · simp [JobState.Running, JobState.stop]
        · simp [JobState.stop]
      · show JobState.Inv _
        simp [JobState.Inv, JobState.stop]
      · simp [JobState.Running, JobState.stop]

/-- Witness for C8: starting the freshly constructed job makes it Running
with exactly one interval; a second start changes nothing; stopping returns
to Stopped with no interval left. -/
theorem claim_C8_witness :
    JobState.initial.start.Running ∧
    JobState.initial.start.activeTimers.length = 1 ∧
    JobState.initial.start.start = JobState.initial.start ∧
    ¬ JobState.initial.start.stop.Running ∧
    JobState.initial.start.stop.activeTimers = [] := by
  have h0 := claim_C8 JobState.initial rfl
  have hs := h0.2.1 (by simp [JobState.Running, JobState.initial])
  have h1 := claim_C8 JobState.initial.start h0.2.2.2.1
  exact ⟨hs.1, hs.2, (h1.2.2.1 hs.1).1, (h1.2.2.2.2.1 hs.1).1,
    (h1.2.2.2.2.1 hs.1).2⟩

/-- Unpacking a successful durable update: the rows are the old rows with
content/metadata rewritten at the matching id, nothing else. -/
lemma pgUpdate_ok {pg : PgState} {id : Nat} {upd : MessageUpdate}
    {rOpt : Option Message} {pg1 : PgState}
    (h : pgUpdate pg id upd = .ok (rOpt, pg1)) :
    pg1.rows = pg.rows.map (fun r =>
      if r.id == id then
        { r with content := upd.content.getD r.content,
                 metadata := match upd.metadata with
                             | some v => some v
                             | none => r.metadata }
      else r) := by
  unfold pgUpdate at h
  by_cases hc : upd.content = none ∧ upd.metadata = none
  · rw [if_pos hc] at h
    cases h
  · rw [if_neg hc] at h
    injection h with h2
    injection h2 with hr hst
    rw [← hst]

/-- Claim C9: `update(id, fields)` writes only the content and metadata
fields to the durable row — id, userId, conversationId, type and timestamp
of every durable row are unchanged even when supplied in `fields` — while
the matching entry of the owner's cached list, when one exists, has every
supplied field merged into it (the `{ ...msg, ...updates }` spread,
embedded as `mergeUpdate`). -/
theorem claim_C9 (pg : PgState) (rs : RedisState) (id : Nat)
    (upd : MessageUpdate) :
    (∀ rOpt pg1, pgUpdate pg id upd = .ok (rOpt, pg1) →
      List.Forall₂ (fun a b : Message => b.id = a.id ∧ b.userId = a.userId ∧
        b.conversationId = a.conversationId ∧ b.type = a.type ∧
        b.timestamp = a.timestamp) pg.rows pg1.rows) ∧
    (∀ updated pg1 cached ttl, rs.failing = false →
      pgUpdate pg id upd = .ok (some updated, pg1) →
      rs.lookup updated.userId = some ⟨.wellFormed cached, ttl⟩ →
      cachedUpdate ⟨pg, rs⟩ id upd = .ok (some updated,
        ⟨pg1, rs.store updated.userId
          ⟨.wellFormed (cached.map (fun m =>
            if m.id == id then mergeUpdate m upd else m)),
           MESSAGE_TTL⟩⟩)) := by
  constructor
  · intro rOpt pg1 h
    rw [pgUpdate_ok h, List.forall₂_map_right_iff, List.forall₂_same]
    intro x hx
    by_cases hid : (x.id == id) = true
    · simp [hid]
    · simp [hid]
  · intro updated pg1 cached ttl hfail hupd hl
    simp [cachedUpdate, hupd,
      getUserMessages_wellFormed rs updated.userId cached ttl hfail hl,
      setUserMessages_ok rs updated.userId _ hfail]

/-- Witness for C9: `fields` supplies both `content` and `userId`; the
durable row takes only the content while the cached entry takes both. -/
theorem claim_C9_witness :
    List.Forall₂ (fun a b : Message => b.id = a.id ∧ b.userId = a.userId ∧
      b.conversationId = a.conversationId ∧ b.type = a.type ∧
      b.timestamp = a.timestamp)
      [msg1] [⟨1, 10, 7, .user, "x", 0, none⟩] ∧
    cachedUpdate ⟨⟨[msg1], 2, 1, 0⟩, ⟨[(7, ⟨.wellFormed [msg1], 50⟩)], false⟩⟩
        1 ⟨none, none, some 9, none, some "x", none, none⟩ =
      .ok (some ⟨1, 10, 7, .user, "x", 0, none⟩,
        ⟨⟨[⟨1, 10, 7, .user, "x", 0, none⟩], 2, 1, 0⟩,
         ⟨[(7, ⟨.wellFormed [⟨1, 10, 9, .user, "x", 0, none⟩], 1200⟩)],
          false⟩⟩) := by
  have h := claim_C9 ⟨[msg1], 2, 1, 0⟩
    ⟨[(7, ⟨.wellFormed [msg1], 50⟩)], false⟩ 1
    ⟨none, none, some 9, none, some "x", none, none⟩
  constructor
  · exact h.1 (some ⟨1, 10, 7, .user, "x", 0, none⟩)
      ⟨[⟨1, 10, 7, .user, "x", 0, none⟩], 2, 1, 0⟩ rfl
  · exact h.2 ⟨1, 10, 7, .user, "x", 0, none⟩
      ⟨[⟨1, 10, 7, .user, "x", 0, none⟩], 2, 1, 0⟩ [msg1] 50 rfl rfl rfl

/-- Claim C10: reading a cached list whose stored payload is not parseable
as JSON yields absent (`null`), not an error; and `findByUserId` treats an
absent entry, a cached empty list, and a malformed payload all as a cache
miss, falling through to the durable read (the read counter advances) — a
cached empty list never short-circuits the durable path. -/
theorem claim_C10 (pg : PgState) (rs : RedisState) (u limit ttl : Nat)
    (hfail : rs.failing = false) :
    (rs.lookup u = some ⟨.malformed, ttl⟩ →
      getUserMessages rs u = .ok (none, rs)) ∧
    (rs.lookup u = none →
      (cachedFindByUserId ⟨pg, rs⟩ u limit).1 =
        (pgFindByUserId pg u limit).1 ∧
      (cachedFindByUserId ⟨pg, rs⟩ u limit).2.pg.reads = pg.reads + 1) ∧
    (rs.lookup u = some ⟨.wellFormed [], ttl⟩ →
      (cachedFindByUserId ⟨pg, rs⟩ u limit).1 =
        (pgFindByUserId pg u limit).1 ∧
      (cachedFindByUserId ⟨pg, rs⟩ u limit).2.pg.reads = pg.reads + 1) ∧
    (rs.lookup u = some ⟨.malformed, ttl⟩ →
      (cachedFindByUserId ⟨pg, rs⟩ u limit).1 =
        (pgFindByUserId pg u limit).1 ∧
      (cachedFindByUserId ⟨pg, rs⟩ u limit).2.pg.reads = pg.reads + 1) := by
  refine ⟨fun hl => getUserMessages_malformed rs u ttl hfail hl,
    fun hl => ?_, fun hl => ?_, fun hl => ?_⟩
  · rw [cachedFindByUserId_no_entry pg rs u limit hfail hl,
      cacheMissPath_eq pg rs u limit hfail]
    exact ⟨rfl, rfl⟩
  · rw [cachedFindByUserId_empty_list pg rs u limit ttl hfail hl,
      cacheMissPath_eq pg rs u limit hfail]
    exact ⟨rfl, rfl⟩
  · rw [cachedFindByUserId_malformed pg rs u limit ttl hfail hl,
      cacheMissPath_eq pg rs u limit hfail]
    exact ⟨rfl, rfl⟩

/-- Witness for C10 at three concrete cache states: a malformed payload, an
absent entry, and a cached empty list, each against a one-message durable
store. -/
theorem claim_C10_witness :
    getUserMessages ⟨[(7, ⟨.malformed, 9⟩)], false⟩ 7 =
      .ok (none, ⟨[(7, ⟨.malformed, 9⟩)], false⟩) ∧
    (cachedFindByUserId ⟨⟨[msg1], 2, 1, 0⟩, ⟨[], false⟩⟩ 7 5).1 = [msg1] ∧
    (cachedFindByUserId ⟨⟨[msg1], 2, 1, 0⟩,
        ⟨[(7, ⟨.wellFormed [], 9⟩)], false⟩⟩ 7 5).2.pg.reads = 1 ∧
    (cachedFindByUserId ⟨⟨[msg1], 2, 1, 0⟩,
        ⟨[(7, ⟨.malformed, 9⟩)], false⟩⟩ 7 5).1 = [msg1] := by
  have hM := claim_C10 ⟨[msg1], 2, 1, 0⟩ ⟨[(7, ⟨.malformed, 9⟩)], false⟩
    7 5 9 rfl
  have hN := claim_C10 ⟨[msg1], 2, 1, 0⟩ ⟨[], false⟩ 7 5 9 rfl
  have hE := claim_C10 ⟨[msg1], 2, 1, 0⟩ ⟨[(7, ⟨.wellFormed [], 9⟩)], false⟩
    7 5 9 rfl
  refine ⟨hM.1 rfl, ?_, ?_, ?_⟩
  · rw [(hN.2.1 rfl).1]; rfl
  · exact (hE.2.2.1 rfl).2
  · rw [(hM.2.2.2 rfl).1]; rfl

end Proto
